import Mathlib

/-!
# Hive-Panel security subsystem — verification development

Shallow embedding of the security core of the Hive-Panel administrative
panel and proofs of its specified properties.  The embedded components
are:

* the login **Attempt Tracker** (`src/html/utils` login-attempts module:
  `recordFailedAttempt`, `isLocked`, `resetAttempts`, `getAttemptCount`,
  `cleanup`) together with its lockout configuration;
* the **Session Guard** middleware (`sessionValidation`,
  `initializeSession`);
* the **Permission Resolver** (`hasWildcard`, `getRolePermissions`,
  `getAllUserPermissions`, `hasPermission`, plus the superadmin /
  `admin_all` short-circuits);
* the **Field Cipher** (`encrypt`, `decrypt`, `isEncryptionConfigured`)
  built on AES-256-GCM with PBKDF2 key derivation.

Machine integers are modelled as `Nat` (timestamps are `Date.now()`
milliseconds, which never overflow a JS double in practice); JS objects
become structures; the process-wide mutable maps become explicit state
values threaded through the operations; functions that can `throw`
return `Except`.
-/

namespace HivePanel

/-! ## Attempt Tracker

Embeds the login-attempts module (`src/html/utils`): an in-memory map
from identifier to attempt record, with escalating lockout durations
read from the security configuration. -/

/-- One entry of the in-memory `loginAttempts` map:
`{ count, firstAttempt, lastAttempt, lockedUntil }`.  `lockedUntil` is a
millisecond timestamp when a lock is set and `null` (`none`) otherwise. -/
structure AttemptRecord where
  count : Nat
  firstAttempt : Nat
  lastAttempt : Nat
  lockedUntil : Option Nat
deriving Repr, DecidableEq

/-- The `config.loginAttempts` block of the security configuration. -/
structure LoginAttemptsConfig where
  lockout5Attempts : Nat
  lockout10Attempts : Nat
  lockout20Attempts : Nat
deriving Repr, DecidableEq

/-- The configured values: 15 minutes for 5 attempts, 1 hour for 10
attempts, 24 hours for 20+ attempts (all in milliseconds). -/
def securityConfig : LoginAttemptsConfig :=
  { lockout5Attempts := 15 * 60 * 1000
    lockout10Attempts := 60 * 60 * 1000
    lockout20Attempts := 24 * 60 * 60 * 1000 }

/-- The process-wide `loginAttempts` map, modelled as a partial function
from identifier to record (`none` = no entry). -/
def AttemptsStore : Type := String → Option AttemptRecord

/-- Source `loginAttempts.set identifier attempts`. -/
def AttemptsStore.set (store : AttemptsStore) (identifier : String)
    (attempts : AttemptRecord) : AttemptsStore :=
  fun id => if id = identifier then some attempts else store id

/-- Source `loginAttempts.delete identifier`. -/
def AttemptsStore.erase (store : AttemptsStore) (identifier : String) :
    AttemptsStore :=
  fun id => if id = identifier then none else store id

/-- The empty map. -/
def AttemptsStore.empty : AttemptsStore := fun _ => none

/-- The lockout duration chosen inside `recordFailedAttempt` once the
count has reached 5: the branch chain `>= 20`, `>= 10`, `>= 5` picks the
duration of the highest threshold met. -/
def lockoutDurationFor (cfg : LoginAttemptsConfig) (count : Nat) : Nat :=
  if count ≥ 20 then cfg.lockout20Attempts
  else if count ≥ 10 then cfg.lockout10Attempts
  else cfg.lockout5Attempts

/-- Source `recordFailedAttempt(identifier)`: fetches (or freshly creates) the
record, increments the count, stamps `lastAttempt`, and when the new
count is ≥ 5 sets `lockedUntil = now + duration` for the highest tier
met.  Returns `{ attempts, lockedUntil }` together with the updated
store.  `now` is `Date.now()` passed explicitly. -/
def recordFailedAttempt (cfg : LoginAttemptsConfig) (now : Nat)
    (identifier : String) (store : AttemptsStore) :
    (Nat × Option Nat) × AttemptsStore :=
  let attempts := (store identifier).getD
    { count := 0, firstAttempt := now, lastAttempt := now, lockedUntil := none }
  let attempts := { attempts with count := attempts.count + 1, lastAttempt := now }
  let attempts :=
    if attempts.count ≥ 5 then
      { attempts with lockedUntil := some (now + lockoutDurationFor cfg attempts.count) }
    else attempts
  ((attempts.count, attempts.lockedUntil), store.set identifier attempts)

/-- Source `isLocked(identifier)`: returns `{ isLocked, remainingTime }`.  A
record whose `lockedUntil` has passed gets its lock cleared in place
(`attempts.lockedUntil = null`) — an observable side effect on the
store, returned as the second component. -/
def isLocked (now : Nat) (identifier : String) (store : AttemptsStore) :
    (Bool × Option Nat) × AttemptsStore :=
  match store identifier with
  | none => ((false, none), store)
  | some attempts =>
    match attempts.lockedUntil with
    | none => ((false, none), store)
    | some lockedUntil =>
      if now ≥ lockedUntil then
        ((false, none), store.set identifier { attempts with lockedUntil := none })
      else
        ((true, some (lockedUntil - now)), store)

/-- Source `resetAttempts(identifier)`: deletes the record outright. -/
def resetAttempts (identifier : String) (store : AttemptsStore) :
    AttemptsStore :=
  store.erase identifier

/-- Source `getAttemptCount(identifier)`: the stored count, `0` when absent. -/
def getAttemptCount (identifier : String) (store : AttemptsStore) : Nat :=
  match store identifier with
  | some attempts => attempts.count
  | none => 0

/-- Source `MAX_AGE`: the 24-hour retention ceiling used by the sweep. -/
def MAX_AGE : Nat := 24 * 60 * 60 * 1000

/-- Source `cleanup()`: deletes every record whose first-failure age exceeds
`MAX_AGE`, independent of lock state. -/
def cleanup (now : Nat) (store : AttemptsStore) : AttemptsStore :=
  fun id =>
    match store id with
    | some attempts =>
        if now - attempts.firstAttempt > MAX_AGE then none else some attempts
    | none => none

/-! ## Session Guard

Embeds the session-validation middleware: the public-route allow-list,
the static-extension bypass, the restart-token check and the inactivity
check with rolling renewal of `lastActivity`. -/

/-- The relevant fields of the express session object.  `userId` and
`lastActivity` are `Option`s because the middleware tests them for JS
truthiness (`!req.session.userId`, `if (req.session.lastActivity)`). -/
structure SessionState where
  userId : Option String
  username : String
  role : String
  loginTime : Nat
  lastActivity : Option Nat
  restartToken : String
deriving Repr, DecidableEq

/-- Embeds `config.sessionTimeout.inactivityTimeout`: 10 minutes in ms. -/
def inactivityTimeout : Nat := 10 * 60 * 1000

/-- The fixed allow-list of public routes skipped by the middleware. -/
def publicRoutes : List String :=
  ["/api/auth/login", "/api/csrf-token", "/api/recaptcha-config"]

/-- The static-file extensions of the bypass regex
`\.(html|css|js|png|jpg|jpeg|gif|ico|svg)$`. -/
def staticExtensions : List String :=
  ["html", "css", "js", "png", "jpg", "jpeg", "gif", "ico", "svg"]

/-- A path is exempt from session validation when it is a public route
or ends in one of the static-file extensions (the anchored regex
`\.ext$`, expressed as a character-list suffix test). -/
def isExemptPath (path : String) : Bool :=
  publicRoutes.contains path ||
    staticExtensions.any (fun ext => ("." ++ ext).toList.isSuffixOf path.toList)

/-- Outcome of the middleware for one request. -/
inductive SessionDecision where
  /-- Source `next()` without touching the session: exempt path, absent
  session, or unauthenticated session. -/
  | nextUntouched : SessionDecision
  /-- Rejects with HTTP 401 and the given machine-readable `reason`; the session is
  destroyed. -/
  | rejected (reason : String) : SessionDecision
  /-- Source `next()` after the rolling renewal of `lastActivity`. -/
  | nextValidated : SessionDecision
deriving Repr, DecidableEq

/-- Source `sessionValidation(req, res, next)`: exempt-path bypass; pass-through
for unauthenticated requests; restart-token check (reject
`server_restart`, destroy session); inactivity check (reject
`inactivity_timeout`, destroy session) — only run when `lastActivity` is
set; otherwise rolling renewal `lastActivity = now`.  Returns the
decision and the resulting session (`none` = destroyed / was absent). -/
def sessionValidation (currentToken : String) (now : Nat) (path : String)
    (session : Option SessionState) :
    SessionDecision × Option SessionState :=
  if isExemptPath path then (.nextUntouched, session)
  else
    match session with
    | none => (.nextUntouched, none)
    | some s =>
      match s.userId with
      | none => (.nextUntouched, some s)
      | some _ =>
        if s.restartToken ≠ currentToken then
          (.rejected "server_restart", none)
        else
          match s.lastActivity with
          | some last =>
            if now - last > inactivityTimeout then
              (.rejected "inactivity_timeout", none)
            else
              (.nextValidated, some { s with lastActivity := some now })
          | none => (.nextValidated, some { s with lastActivity := some now })

/-- Source `initializeSession(session, user)`: sets the identity fields,
`loginTime = lastActivity = now` and the process restart token.
`userId = user.id || user.username` is modelled by passing the resolved
id. -/
def initializeSession (currentToken : String) (now : Nat)
    (userId username role : String) : SessionState :=
  { userId := some userId
    username := username
    role := role
    loginTime := now
    lastActivity := some now
    restartToken := currentToken }

/-! ## Login flow (`router.post(/api/auth/login)`)

The part of the login handler that drives the Attempt Tracker: the lock
gate, the optional reCAPTCHA gate, credential verification (external),
`resetAttempts` on success and `recordFailedAttempt` on failure. -/

/-- Observable outcome of one login request. -/
inductive LoginOutcome where
  /-- HTTP 429: identifier locked; carries `remainingTime` in ms. -/
  | locked (remainingTime : Nat) : LoginOutcome
  /-- HTTP 400: reCAPTCHA verification failed. -/
  | recaptchaFailed : LoginOutcome
  /-- HTTP 200: credentials verified, session initialized. -/
  | success : LoginOutcome
  /-- HTTP 401: invalid credentials; carries `remainingAttempts`
  (`Math.max(0, 5 - attempts)`, which `Nat` subtraction matches). -/
  | invalidCredentials (remainingAttempts : Nat) : LoginOutcome
deriving Repr, DecidableEq

/-- The login handler over the attempts store.  `credentialsOk` stands
for the external `verifyUserPassword` result, `recaptchaEnabled` /
`recaptchaOk` for the external bot-verification call. -/
def loginFlow (now : Nat) (username : String)
    (recaptchaEnabled recaptchaOk credentialsOk : Bool)
    (store : AttemptsStore) : LoginOutcome × AttemptsStore :=
  let lockStatus := isLocked now username store
  if lockStatus.1.1 then
    (.locked (lockStatus.1.2.getD 0), lockStatus.2)
  else if recaptchaEnabled && !recaptchaOk then
    (.recaptchaFailed, lockStatus.2)
  else if credentialsOk then
    (.success, resetAttempts username lockStatus.2)
  else
    let attemptInfo := recordFailedAttempt securityConfig now username lockStatus.2
    (.invalidCredentials (5 - attemptInfo.1.1), attemptInfo.2)

/-! ## Permission Resolver

Embeds the current permission utilities (the copy with the superadmin /
`admin_all` short-circuits).  A user is `none` when the JS caller passes
a missing object; an empty permission string is falsy in JS
(`!permission`), which the embedding tests explicitly. -/

/-- A stored role: id and flat permission set (no role recursion). -/
structure Role where
  id : String
  permissions : List String
deriving Repr, DecidableEq

/-- The relevant fields of a stored user/principal.  Absent JS fields
(`user.permissions`, `user.roles` may be `undefined`) are modelled as
empty lists, which the source treats identically (`user.permissions ||
[]`, the `Array.isArray` guard). -/
structure User where
  role : String
  permissions : List String
  roles : List String
deriving Repr, DecidableEq

/-- Source `ROLES.SUPERADMIN`. -/
def SUPERADMIN : String := "superadmin"

/-- Source `PERMISSIONS.ADMIN_ALL`, the legacy escalation permission. -/
def ADMIN_ALL : String := "admin_all"

/-- Source `Object.values(PERMISSIONS)`: the full permission universe returned
by the short-circuits. -/
def permissionsUniverse : List String :=
  ["manage_accounts", "view_accounts", "manage_roles", "handle_requests",
   "admin_all"]

/-- Source `isSuperAdmin(user)`. -/
def isSuperAdmin (user : User) : Bool :=
  user.role = SUPERADMIN

/-- Source `isUserAdmin(user)`: direct grant of `admin_all`. -/
def isUserAdmin (user : User) : Bool :=
  user.permissions.contains ADMIN_ALL

/-- Source `hasWildcard(user)`: direct grant of the `*` sentinel. -/
def hasWildcard (user : User) : Bool :=
  user.permissions.contains "*"

/-- Source `getRolePermissions(roleId)`: permission set of the first stored
role with that id, `[]` when absent.  The role store (`roles.json`) is
passed explicitly. -/
def getRolePermissions (rolesData : List Role) (roleId : String) :
    List String :=
  match rolesData.find? (fun r => r.id = roleId) with
  | some role => role.permissions
  | none => []

/-- Source `permissions.add(perm)` on the JS `Set`, modelled as a
duplicate-free list keeping first-insertion order. -/
def insertPerm (acc : List String) (perm : String) : List String :=
  if acc.contains perm then acc else acc ++ [perm]

/-- The role loop of `getAllUserPermissions`: for each held role id, add
that role's permissions to the accumulated set; the instant the set
contains `*` or `admin_all`, return the full universe. -/
def rolesLoop (rolesData : List Role) :
    List String → List String → List String
  | [], acc => acc
  | roleId :: rest, acc =>
    let acc := (getRolePermissions rolesData roleId).foldl insertPerm acc
    if acc.contains "*" || acc.contains ADMIN_ALL then permissionsUniverse
    else rolesLoop rolesData rest acc

/-- Source `getAllUserPermissions(user)`: superadmin, direct `admin_all` and
direct `*` all return the full universe; otherwise the union of direct
permissions and held roles' permissions, short-circuiting to the
universe when `*` or `admin_all` appears during the union. -/
def getAllUserPermissions (rolesData : List Role) (user : Option User) :
    List String :=
  match user with
  | none => []
  | some u =>
    if isSuperAdmin u then permissionsUniverse
    else if isUserAdmin u then permissionsUniverse
    else if hasWildcard u then permissionsUniverse
    else rolesLoop rolesData u.roles (u.permissions.foldl insertPerm [])

/-- Source `hasPermission(user, permission)`: false for a missing user or falsy
(empty) permission string; true for superadmin, direct `admin_all`,
direct `*`; otherwise membership in the effective set. -/
def hasPermission (rolesData : List Role) (user : Option User)
    (permission : String) : Bool :=
  match user with
  | none => false
  | some u =>
    if permission = "" then false
    else if isSuperAdmin u then true
    else if isUserAdmin u then true
    else if hasWildcard u then true
    else (getAllUserPermissions rolesData (some u)).contains permission

/-- Adding permission `perm` to the stored role `roleId` (every stored
copy with that id, matching an update of `roles.json`). -/
def addPermToRole (rolesData : List Role) (roleId perm : String) :
    List Role :=
  rolesData.map fun r =>
    if r.id = roleId then { r with permissions := r.permissions ++ [perm] }
    else r

/-! ## Field Cipher

Embeds the encryption utility: per-value random salt and IV, PBKDF2 key
derivation, AES-256-GCM with a 16-byte authentication tag, and the
`salt‖iv‖tag‖ciphertext` blob layout.

The cryptographic primitives themselves (`crypto.pbkdf2Sync`,
`crypto.createCipheriv('aes-256-gcm')`) are Node library code, not part
of this repository; they are modelled from the spec below.  Two
transport bijections of the source are elided: the UTF-8 encoding of the
plaintext string and the base64 encoding of the combined buffer —
plaintexts and blobs are byte lists (`List Nat`, each `< 256`).  The
randomness drawn by `crypto.randomBytes` inside `encrypt` is passed as
explicit `salt` / `iv` arguments. -/

/-- Source `IV_LENGTH = 16`. -/
def IV_LENGTH : Nat := 16

/-- Source `SALT_LENGTH = 64`. -/
def SALT_LENGTH : Nat := 64

/-- Source `TAG_LENGTH = 16`. -/
def TAG_LENGTH : Nat := 16

/-- The environment the cipher reads: `process.env.ENCRYPTION_KEY`. -/
structure CryptoEnv where
  encryptionKey : Option String
deriving Repr, DecidableEq

/-- Source `getEncryptionKey()`: throws when the key is unset or shorter than
32 characters, else returns it. -/
def getEncryptionKey (env : CryptoEnv) : Except String String :=
  match env.encryptionKey with
  | none => .error "ENCRYPTION_KEY is required for encryption"
  | some key =>
    if key.length < 32 then
      .error "ENCRYPTION_KEY must be at least 32 characters"
    else .ok key

/-- Source `isEncryptionConfigured()`: `key && key.length >= 32` (an unset or
empty key is falsy). -/
def isEncryptionConfigured (env : CryptoEnv) : Bool :=
  match env.encryptionKey with
  | none => false
  | some key => key.length ≥ 32

/-- Modelled from the spec: `crypto.pbkdf2Sync(password, salt, 100000,
32, sha256)` is Node library code, not in this repository.  The spec
requires only a deterministic derivation of a key from the master secret
and the salt; it is modelled as an iterated mixing fold over the
password characters and salt bytes. -/
def deriveKey (password : String) (salt : List Nat) : Nat :=
  let h := password.toList.foldl
    (fun a c => (a * 131 + c.toNat) % 4294967296) 5381
  salt.foldl (fun a b => (a * 131 + b) % 4294967296) h

/-- Modelled from the spec: the AES-256-GCM keystream (counter mode) is
Node library code; modelled as a deterministic byte stream of the
derived key, the IV and the byte position. -/
def keystreamByte (key : Nat) (iv : List Nat) (i : Nat) : Nat :=
  let ivh := iv.foldl (fun a b => (a * 131 + b) % 4294967296) 7
  (key + ivh * 31 + i * 7919) % 256

/-- XOR-ing the keystream (starting at position `i`) onto a byte list:
counter-mode encryption and decryption are both this map. -/
def xorStream (key : Nat) (iv : List Nat) : Nat → List Nat → List Nat
  | _, [] => []
  | i, b :: rest => (b ^^^ keystreamByte key iv i) :: xorStream key iv (i + 1) rest

/-- XOR-fold of a byte list (the linear part of the tag). -/
def xorFold (l : List Nat) : Nat :=
  l.foldl (fun a b => a ^^^ b) 0

/-- Modelled from the spec: the 16-byte GCM authentication tag
(`cipher.getAuthTag()`) is Node library code.  GCM's GHASH is linear
over GF(2^128) in the ciphertext — any single-bit change of the
ciphertext changes the tag — masked by a key/IV-dependent block; this is
modelled as an XOR-fold of the ciphertext in the first byte and
key/IV-derived filler bytes. -/
def computeTag (key : Nat) (iv : List Nat) (ct : List Nat) : List Nat :=
  xorFold ct % 256 ::
    (List.range (TAG_LENGTH - 1)).map (fun i => keystreamByte key iv (2 ^ 32 + i))

/-- Modelled from the spec: `cipher.update`/`cipher.final` of
AES-256-GCM, producing ciphertext and authentication tag. -/
def gcmEncrypt (key : Nat) (iv : List Nat) (plaintext : List Nat) :
    List Nat × List Nat :=
  let ct := xorStream key iv 0 plaintext
  (ct, computeTag key iv ct)

/-- Modelled from the spec: `decipher.setAuthTag` + `decipher.final` of
AES-256-GCM: verifies the tag and throws on mismatch, never returning
plaintext from an unauthenticated ciphertext. -/
def gcmDecrypt (key : Nat) (iv : List Nat) (ct tag : List Nat) :
    Except String (List Nat) :=
  if computeTag key iv ct = tag then .ok (xorStream key iv 0 ct)
  else .error "Unsupported state or unable to authenticate data"

/-- Source `encrypt(text)`: `null` (`.ok none`) for falsy input; otherwise
derives the key from the master secret and the fresh salt, encrypts
under derived-key + IV, and returns the combined
`salt ‖ iv ‖ authTag ‖ ciphertext` buffer (base64-encoded by the
source).  Any thrown error is caught and rethrown as
`Failed to encrypt data`. -/
def encrypt (env : CryptoEnv) (salt iv text : List Nat) :
    Except String (Option (List Nat)) :=
  if text.isEmpty then .ok none
  else
    match getEncryptionKey env with
    | .error _ => .error "Failed to encrypt data"
    | .ok encryptionKey =>
      let key := deriveKey encryptionKey salt
      let (encrypted, authTag) := gcmEncrypt key iv text
      .ok (some (salt ++ iv ++ authTag ++ encrypted))

/-- Source `decrypt(encryptedData)`: `null` (`.ok none`) for falsy input;
otherwise splits the blob at the fixed offsets
(`slice(0,64)`, `slice(64,80)`, `slice(80,96)`, `slice(96)`),
re-derives the key from the extracted salt, and decrypts while
verifying the tag.  Any thrown error — missing/short master secret or
tag mismatch — is caught and rethrown as `Failed to decrypt data`. -/
def decrypt (env : CryptoEnv) (encryptedData : List Nat) :
    Except String (Option (List Nat)) :=
  if encryptedData.isEmpty then .ok none
  else
    match getEncryptionKey env with
    | .error _ => .error "Failed to decrypt data"
    | .ok encryptionKey =>
      let salt := encryptedData.take SALT_LENGTH
      let iv := (encryptedData.drop SALT_LENGTH).take IV_LENGTH
      let authTag := (encryptedData.drop (SALT_LENGTH + IV_LENGTH)).take TAG_LENGTH
      let encrypted := encryptedData.drop (SALT_LENGTH + IV_LENGTH + TAG_LENGTH)
      let key := deriveKey encryptionKey salt
      match gcmDecrypt key iv encrypted authTag with
      | .ok decrypted => .ok (some decrypted)
      | .error _ => .error "Failed to decrypt data"

/-- Flipping bit `j` of the byte at index `idx` of a blob. -/
def flipBitAt (l : List Nat) (idx j : Nat) : List Nat :=
  match l[idx]? with
  | some b => l.set idx (b ^^^ 2 ^ j)
  | none => l

/-! ## Concrete inputs used by the witness theorems -/

/-- A store holding four prior failures for `alice`, used as the
concrete witness input. -/
def storeFourFailures : AttemptsStore :=
  fun id =>
    if id = "alice" then
      some { count := 4, firstAttempt := 0, lastAttempt := 0, lockedUntil := none }
    else none

/-- A store where `alice` has 6 failures and a lock that expires at
time 500, used as the concrete witness input. -/
def storeExpiredLock : AttemptsStore :=
  fun id =>
    if id = "alice" then
      some { count := 6, firstAttempt := 0, lastAttempt := 10, lockedUntil := some 500 }
    else none

/-- A store where `alice` has 5 failures and an active lock until
time 901000, used as the concrete witness input. -/
def storeActiveLock : AttemptsStore :=
  fun id =>
    if id = "alice" then
      some { count := 5, firstAttempt := 0, lastAttempt := 1000,
             lockedUntil := some 901000 }
    else none

/-- A stale session used as the concrete witness input: authenticated,
generation token `boot-1`, last active at time 0. -/
def staleSession : SessionState :=
  { userId := some "u1", username := "alice", role := "admin",
    loginTime := 0, lastActivity := some 0, restartToken := "boot-1" }

/-- A ≥ 32-character master secret used for the cipher witnesses. -/
def witnessEnv : CryptoEnv :=
  { encryptionKey := some "0123456789abcdef0123456789abcdef" }

/-- A 64-byte salt used for the cipher witnesses. -/
def witnessSalt : List Nat := List.range SALT_LENGTH

/-- A second, distinct 64-byte salt used for the cipher witnesses. -/
def witnessSalt2 : List Nat := (List.range SALT_LENGTH).map (fun i => i + 1)

/-- A 16-byte IV used for the cipher witnesses. -/
def witnessIv : List Nat := List.range IV_LENGTH

/-! ## Theorems: Attempt Tracker -/

/-- Evaluating the tier selection at the configured durations. -/
theorem lockoutDurationFor_eval (n : Nat) :
    lockoutDurationFor securityConfig n =
      if 20 ≤ n then 86400000 else if 10 ≤ n then 3600000 else 900000 := rfl

/-- The configured lockout durations are all positive. -/
theorem lockoutDurationFor_pos (n : Nat) :
    0 < lockoutDurationFor securityConfig n := by
  rw [lockoutDurationFor_eval]
  split_ifs <;> norm_num

/-- The tier duration is monotone in the failure count. -/
theorem lockoutDurationFor_mono {m n : Nat} (h : m ≤ n) :
    lockoutDurationFor securityConfig m ≤ lockoutDurationFor securityConfig n := by
  rw [lockoutDurationFor_eval, lockoutDurationFor_eval]
  split_ifs <;> omega

/-- Claim C2: Crossing a lockout threshold via `recordFailedAttempt` makes
`isLocked` report locked with `remainingTime > 0` equal to the tier's
configured duration; on each failure with new count ≥ 5 the lock-expiry
is recomputed as `now +` the duration of the highest threshold met
(≥ 5 → 15 minutes, ≥ 10 → 1 hour, ≥ 20 → 24 hours). -/
theorem recordFailedAttempt_lockout_tiers
    (now : Nat) (identifier : String) (store : AttemptsStore)
    (h5 : 5 ≤ getAttemptCount identifier store + 1) :
    (recordFailedAttempt securityConfig now identifier store).1 =
      (getAttemptCount identifier store + 1,
        some (now + lockoutDurationFor securityConfig
          (getAttemptCount identifier store + 1))) ∧
    (isLocked now identifier
        (recordFailedAttempt securityConfig now identifier store).2).1 =
      (true, some (lockoutDurationFor securityConfig
        (getAttemptCount identifier store + 1))) ∧
    0 < lockoutDurationFor securityConfig (getAttemptCount identifier store + 1) ∧
    (20 ≤ getAttemptCount identifier store + 1 →
      lockoutDurationFor securityConfig (getAttemptCount identifier store + 1) =
        24 * 60 * 60 * 1000) ∧
    (10 ≤ getAttemptCount identifier store + 1 →
      getAttemptCount identifier store + 1 < 20 →
      lockoutDurationFor securityConfig (getAttemptCount identifier store + 1) =
        60 * 60 * 1000) ∧
    (getAttemptCount identifier store + 1 < 10 →
      lockoutDurationFor securityConfig (getAttemptCount identifier store + 1) =
        15 * 60 * 1000) := by
  have hpos := lockoutDurationFor_pos (getAttemptCount identifier store + 1)
  refine ⟨?_, ?_, hpos, ?_, ?_, ?_⟩
  · cases hs : store identifier with
    | none => simp [getAttemptCount, hs] at h5
    | some a =>
      have hc : getAttemptCount identifier store = a.count := by
        simp [getAttemptCount, hs]
      rw [hc] at h5 ⊢
      simp [recordFailedAttempt, hs, h5]
  · cases hs : store identifier with
    | none => simp [getAttemptCount, hs] at h5
    | some a =>
      have hc : getAttemptCount identifier store = a.count := by
        simp [getAttemptCount, hs]
      rw [hc] at h5 hpos ⊢
      simp only [recordFailedAttempt, hs, Option.getD_some, h5, if_pos,
        ge_iff_le, isLocked, AttemptsStore.set, if_pos rfl]
      rw [if_neg (by omega)]
      simp
  · intro h20
    rw [lockoutDurationFor_eval]
    split_ifs
    omega
  · intro h10 h20
    rw [lockoutDurationFor_eval]
    split_ifs <;> omega
  · intro h10
    rw [lockoutDurationFor_eval]
    split_ifs <;> omega

/-- Witness for claim C2: the fifth failure at `now = 1000` locks `alice`
for the configured 15 minutes (900000 ms). -/
theorem recordFailedAttempt_lockout_tiers_witness :
    (recordFailedAttempt securityConfig 1000 "alice" storeFourFailures).1 =
      (5, some 901000) ∧
    (isLocked 1000 "alice"
        (recordFailedAttempt securityConfig 1000 "alice" storeFourFailures).2).1 =
      (true, some 900000) := by
  have h := recordFailedAttempt_lockout_tiers 1000 "alice" storeFourFailures
    (by decide)
  exact ⟨h.1, h.2.1⟩

/-- Claim C7: The stored failure count never decreases across
`recordFailedAttempt` and `isLocked` calls: `recordFailedAttempt` only
increments it, `isLocked` leaves every count unchanged and on natural
expiry clears only the lock-expiry; the count is removed only by an
explicit `resetAttempts`, after which the count is 0 and the identifier
is not locked. -/
theorem attemptCount_monotone_until_reset
    (cfg : LoginAttemptsConfig) (now : Nat) (id id' : String)
    (store : AttemptsStore) (a : AttemptRecord) (e : Nat) :
    getAttemptCount id' store ≤
      getAttemptCount id' (recordFailedAttempt cfg now id store).2 ∧
    getAttemptCount id' (isLocked now id store).2 =
      getAttemptCount id' store ∧
    (store id = some a → a.lockedUntil = some e → e ≤ now →
      (isLocked now id store).2 id = some { a with lockedUntil := none } ∧
      (isLocked now id store).1 = (false, none)) ∧
    getAttemptCount id (resetAttempts id store) = 0 ∧
    (isLocked now id (resetAttempts id store)).1 = (false, none) := by
  refine ⟨?_, ?_, ?_, ?_, ?_⟩
  · by_cases hid : id' = id
    · subst hid
      cases hs : store id' <;>
        simp [recordFailedAttempt, getAttemptCount, AttemptsStore.set, hs]
      split <;> simp
    · cases hs : store id <;>
        simp [recordFailedAttempt, getAttemptCount, AttemptsStore.set, hs, hid]
  · cases hs : store id with
    | none => simp [isLocked, hs]
    | some b =>
      cases hl : b.lockedUntil with
      | none => simp [isLocked, hs, hl]
      | some e' =>
        by_cases hexp : now ≥ e'
        · by_cases hid : id' = id
          · subst hid
            simp [isLocked, hs, hl, hexp, AttemptsStore.set, getAttemptCount]
          · simp [isLocked, hs, hl, hexp, AttemptsStore.set, getAttemptCount, hid]
        · simp [isLocked, hs, hl, hexp]
  · intro ha he hexp
    simp [isLocked, ha, he, Nat.le_of_lt, hexp, AttemptsStore.set]
  · simp [resetAttempts, getAttemptCount, AttemptsStore.erase]
  · simp [resetAttempts, isLocked, AttemptsStore.erase]

/-- Witness for claim C7: once `alice`'s lock has expired (now = 600),
`isLocked` clears only the lock and keeps the count at 6; the count
survives `recordFailedAttempt`/`isLocked` and drops to 0 only under
`resetAttempts`. -/
theorem attemptCount_monotone_until_reset_witness :
    (isLocked 600 "alice" storeExpiredLock).2 "alice" =
      some { count := 6, firstAttempt := 0, lastAttempt := 10, lockedUntil := none } ∧
    (isLocked 600 "alice" storeExpiredLock).1 = (false, none) := by
  exact (attemptCount_monotone_until_reset securityConfig 600 "alice" "alice"
    storeExpiredLock
    { count := 6, firstAttempt := 0, lastAttempt := 10, lockedUntil := some 500 }
    500).2.2.1 rfl rfl (by omega)

/-- Claim C10: `recordFailedAttempt` performs no lock check of its own:
called directly while a lock is still active it increments the failure
count and recomputes the lock-expiry to `now +` the tier duration for
the new count; when the active expiry was set by an earlier failure at
time `t0 ≤ now`, the recomputed expiry is no earlier, extending the
lock. -/
theorem recordFailedAttempt_ignores_active_lock
    (now t0 : Nat) (id : String) (store : AttemptsStore)
    (a : AttemptRecord) (e : Nat)
    (ha : store id = some a) (he : a.lockedUntil = some e)
    (hactive : now < e) (hc : 5 ≤ a.count) :
    (recordFailedAttempt securityConfig now id store).1 =
      (a.count + 1,
        some (now + lockoutDurationFor securityConfig (a.count + 1))) ∧
    (isLocked now id (recordFailedAttempt securityConfig now id store).2).1.1 =
      true ∧
    (e = t0 + lockoutDurationFor securityConfig a.count → t0 ≤ now →
      e ≤ now + lockoutDurationFor securityConfig (a.count + 1)) := by
  have h5 : 5 ≤ a.count + 1 := by omega
  have hpos := lockoutDurationFor_pos (a.count + 1)
  refine ⟨?_, ?_, ?_⟩
  · simp [recordFailedAttempt, ha, h5]
  · simp only [recordFailedAttempt, ha, Option.getD_some, ge_iff_le, h5, if_pos,
      isLocked, AttemptsStore.set, if_pos rfl]
    rw [if_neg (by omega)]
  · intro hsync ht0
    have hmono := lockoutDurationFor_mono (show a.count ≤ a.count + 1 by omega)
    omega

/-- Witness for claim C10: a direct `recordFailedAttempt` at `now = 2000`
during `alice`'s active lock still increments the count to 6 and resets
the expiry to `2000 + 900000`, which extends the lock set at 1000. -/
theorem recordFailedAttempt_ignores_active_lock_witness :
    (recordFailedAttempt securityConfig 2000 "alice" storeActiveLock).1 =
      (6, some 902000) ∧
    (isLocked 2000 "alice"
        (recordFailedAttempt securityConfig 2000 "alice" storeActiveLock).2).1.1 =
      true ∧
    (901000 : Nat) ≤ 902000 := by
  have h := recordFailedAttempt_ignores_active_lock 2000 1000 "alice"
    storeActiveLock
    { count := 5, firstAttempt := 0, lastAttempt := 1000, lockedUntil := some 901000 }
    901000 rfl rfl (by omega) (by decide)
  exact ⟨h.1, h.2.1, h.2.2 rfl (by omega)⟩

/-- When `isLocked` reports locked, it has not modified the store. -/
theorem isLocked_locked_store_unchanged
    (now : Nat) (id : String) (store : AttemptsStore)
    (h : (isLocked now id store).1.1 = true) :
    (isLocked now id store).2 = store := by
  cases hs : store id with
  | none => simp [isLocked, hs] at h
  | some a =>
    cases hl : a.lockedUntil with
    | none => simp [isLocked, hs, hl] at h
    | some e =>
      by_cases hge : now ≥ e
      · simp [isLocked, hs, hl, hge] at h
      · simp [isLocked, hs, hl, hge]

/-- When `isLocked` reports locked, the remaining time is positive. -/
theorem isLocked_locked_remaining_pos
    (now : Nat) (id : String) (store : AttemptsStore)
    (h : (isLocked now id store).1.1 = true) :
    ∃ r, (isLocked now id store).1.2 = some r ∧ 0 < r := by
  cases hs : store id with
  | none => simp [isLocked, hs] at h
  | some a =>
    cases hl : a.lockedUntil with
    | none => simp [isLocked, hs, hl] at h
    | some e =>
      by_cases hge : now ≥ e
      · simp [isLocked, hs, hl, hge] at h
      · exact ⟨e - now, by simp [isLocked, hs, hl, hge], by omega⟩

/-- Claim C8: While a lock is active for an identifier, the login flow
records no failed attempt for it: `isLocked` is checked before
`recordFailedAttempt`, and a request for a locked identifier is rejected
as locked (with positive remaining time) with the attempts store — in
particular the identifier's failure count and lock-expiry — left
unchanged. -/
theorem loginFlow_lock_gate
    (now : Nat) (username : String)
    (recaptchaEnabled recaptchaOk credentialsOk : Bool) (store : AttemptsStore)
    (hlocked : (isLocked now username store).1.1 = true) :
    (loginFlow now username recaptchaEnabled recaptchaOk credentialsOk store).2 =
      store ∧
    ∃ remaining, 0 < remaining ∧
      (loginFlow now username recaptchaEnabled recaptchaOk credentialsOk
        store).1 = .locked remaining := by
  obtain ⟨r, hr, hrpos⟩ := isLocked_locked_remaining_pos now username store hlocked
  have hst := isLocked_locked_store_unchanged now username store hlocked
  constructor
  · simp [loginFlow, hlocked, hst]
  · exact ⟨r, hrpos, by simp [loginFlow, hlocked, hr]⟩

/-- Witness for claim C8: at `now = 2000` the identifier `alice` of
`storeActiveLock` is locked; a login request for her leaves the store
unchanged and is rejected as locked. -/
theorem loginFlow_lock_gate_witness :
    (loginFlow 2000 "alice" false false true storeActiveLock).2 =
      storeActiveLock ∧
    ∃ remaining, 0 < remaining ∧
      (loginFlow 2000 "alice" false false true storeActiveLock).1 =
        .locked remaining := by
  exact loginFlow_lock_gate 2000 "alice" false false true storeActiveLock rfl

/-! ## Theorems: Session Guard -/

/-- Claim C1: For every authenticated request to a non-exempt path:
(a) a generation-token mismatch destroys the session and rejects with
reason `server_restart`, regardless of how recent `lastActivity` is;
otherwise (b) if `now - lastActivity` exceeds the inactivity timeout the
session is destroyed and the request rejected with reason
`inactivity_timeout`; otherwise (c) `lastActivity` is set to `now` and
the request continues. -/
theorem sessionValidation_algorithm
    (currentToken : String) (now : Nat) (path : String) (s : SessionState)
    (uid : String) (last : Nat)
    (hexempt : isExemptPath path = false)
    (huid : s.userId = some uid)
    (hlast : s.lastActivity = some last) :
    (s.restartToken ≠ currentToken →
      sessionValidation currentToken now path (some s) =
        (.rejected "server_restart", none)) ∧
    (s.restartToken = currentToken → now - last > inactivityTimeout →
      sessionValidation currentToken now path (some s) =
        (.rejected "inactivity_timeout", none)) ∧
    (s.restartToken = currentToken → now - last ≤ inactivityTimeout →
      sessionValidation currentToken now path (some s) =
        (.nextValidated, some { s with lastActivity := some now })) := by
  refine ⟨?_, ?_, ?_⟩
  · intro hmismatch
    simp [sessionValidation, hexempt, huid, hmismatch]
  · intro hmatch htimeout
    simp [sessionValidation, hexempt, huid, hmatch, hlast, htimeout]
  · intro hmatch htimeout
    simp [sessionValidation, hexempt, huid, hmatch, hlast, Nat.not_lt.mpr htimeout]

/-- Witness for claim C1: against current token `boot-2` the stale session
is rejected with `server_restart` even though it was active 1 ms ago;
against its own token it is rejected with `inactivity_timeout` once idle
for more than 10 minutes, and renewed within the window. -/
theorem sessionValidation_algorithm_witness :
    sessionValidation "boot-2" 1 "/api/users" (some staleSession) =
      (.rejected "server_restart", none) ∧
    sessionValidation "boot-1" 600001 "/api/users" (some staleSession) =
      (.rejected "inactivity_timeout", none) ∧
    sessionValidation "boot-1" 600000 "/api/users" (some staleSession) =
      (.nextValidated, some { staleSession with lastActivity := some 600000 }) := by
  refine ⟨?_, ?_, ?_⟩
  · exact (sessionValidation_algorithm "boot-2" 1 "/api/users" staleSession
      "u1" 0 (by decide) rfl rfl).1 (by decide)
  · exact (sessionValidation_algorithm "boot-1" 600001 "/api/users" staleSession
      "u1" 0 (by decide) rfl rfl).2.1 rfl (by decide)
  · exact (sessionValidation_algorithm "boot-1" 600000 "/api/users" staleSession
      "u1" 0 (by decide) rfl rfl).2.2 rfl (by decide)

/-! ## Theorems: Permission Resolver -/

/-- Lemma: `List.contains` agrees with membership for strings. -/
theorem contains_iff_mem (l : List String) (a : String) :
    l.contains a = true ↔ a ∈ l := by
  exact ⟨fun h => List.elem_iff.mp h, fun h => List.elem_iff.mpr h⟩

/-- Membership after a single `Set.add`. -/
theorem mem_insertPerm {acc : List String} {q perm : String} :
    q ∈ insertPerm acc perm ↔ q ∈ acc ∨ q = perm := by
  unfold insertPerm
  split
  · rename_i hmem
    rw [List.elem_iff] at hmem
    constructor
    · exact Or.inl
    · rintro (h | rfl)
      · exact h
      · exact hmem
  · simp

/-- Membership after adding a whole permission list to the set. -/
theorem mem_foldl_insertPerm (perms : List String) :
    ∀ (acc : List String) (q : String),
      q ∈ perms.foldl insertPerm acc ↔ q ∈ acc ∨ q ∈ perms := by
  induction perms with
  | nil => simp
  | cons p rest ih =>
    intro acc q
    rw [List.foldl_cons, ih, mem_insertPerm]
    simp only [List.mem_cons]
    tauto

/-- Counterexample to claim C5: The claim "`hasPermission` returns true for
*every* permission string" fails at the empty string: the source guards
`if (!user || !permission) return false`, and the empty string is falsy
in JS, so even a superadmin is denied the empty permission string. -/
theorem hasPermission_empty_string_counterexample :
    isSuperAdmin { role := "superadmin", permissions := [], roles := [] } = true ∧
    hasPermission []
      (some { role := "superadmin", permissions := [], roles := [] }) "" =
      false := by
  decide

/-- Claim C5, amended: For every principal that is superadmin, or holds
the legacy escalation permission `admin_all` or the wildcard sentinel
`*` as a direct grant, `hasPermission` returns true for every
**non-empty** permission string, including unknown ones. -/
theorem hasPermission_full_universe
    (rolesData : List Role) (u : User) (p : String)
    (hp : p ≠ "")
    (h : isSuperAdmin u = true ∨ isUserAdmin u = true ∨ hasWildcard u = true) :
    hasPermission rolesData (some u) p = true := by
  unfold hasPermission
  simp only []
  rw [if_neg hp]
  rcases h with h | h | h
  · rw [if_pos h]
  · rw [if_pos h]
    split <;> rfl
  · rw [if_pos h]
    split
    · rfl
    · split <;> rfl

/-- Witness for claim C5 as amended: a superadmin holds the unknown
permission `launch_missiles`; a plain user with a direct `*` grant holds
it as well. -/
theorem hasPermission_full_universe_witness :
    hasPermission []
      (some { role := "superadmin", permissions := [], roles := [] })
      "launch_missiles" = true ∧
    hasPermission []
      (some { role := "user", permissions := ["*"], roles := [] })
      "launch_missiles" = true := by
  constructor
  · exact hasPermission_full_universe [] _ "launch_missiles" (by decide)
      (Or.inl (by decide))
  · exact hasPermission_full_universe [] _ "launch_missiles" (by decide)
      (Or.inr (Or.inr (by decide)))

/-- The per-role lookup after `addPermToRole`: every old permission of
the role is still there, and anything new is exactly the added
permission. -/
theorem getRolePermissions_addPermToRole
    (rolesData : List Role) (roleId perm rid : String) :
    (∀ q ∈ getRolePermissions rolesData rid,
      q ∈ getRolePermissions (addPermToRole rolesData roleId perm) rid) ∧
    (∀ q ∈ getRolePermissions (addPermToRole rolesData roleId perm) rid,
      q ∈ getRolePermissions rolesData rid ∨ q = perm) := by
  have hpred : ((fun r : Role => decide (r.id = rid)) ∘
      (fun r : Role =>
        if r.id = roleId then { r with permissions := r.permissions ++ [perm] }
        else r)) = (fun r : Role => decide (r.id = rid)) := by
    funext r
    by_cases h : r.id = roleId <;> simp [Function.comp, h]
  unfold getRolePermissions addPermToRole
  rw [List.find?_map, hpred]
  cases hfind : rolesData.find? (fun r => decide (r.id = rid)) with
  | none => simp
  | some r =>
    simp only [Option.map_some']
    by_cases h : r.id = roleId
    · rw [if_pos h]
      constructor
      · intro q hq
        simp [hq]
      · intro q hq
        simpa using hq
    · rw [if_neg h]
      exact ⟨fun q hq => hq, fun q hq => Or.inl hq⟩

/-- The short-circuit accumulator loop is monotone under adding a
non-wildcard, non-`admin_all` permission to one role. -/
theorem rolesLoop_mono
    (rolesData : List Role) (roleId perm : String)
    (hstar : perm ≠ "*") (hadmin : perm ≠ ADMIN_ALL) (ids : List String) :
    ∀ (acc acc' : List String),
      (∀ x ∈ acc, x ∈ acc') →
      (∀ x ∈ acc', x ∈ acc ∨ x = perm) →
      ∀ q ∈ rolesLoop rolesData ids acc,
        q ∈ rolesLoop (addPermToRole rolesData roleId perm) ids acc' := by
  induction ids with
  | nil =>
    intro acc acc' h1 _h2 q hq
    exact h1 q hq
  | cons rid rest ih =>
    intro acc acc' h1 h2 q hq
    have hrole := getRolePermissions_addPermToRole rolesData roleId perm rid
    set rp := getRolePermissions rolesData rid with hrp
    set rp' := getRolePermissions (addPermToRole rolesData roleId perm) rid
      with hrp'
    have h1' : ∀ x ∈ rp.foldl insertPerm acc, x ∈ rp'.foldl insertPerm acc' := by
      intro x hx
      rw [mem_foldl_insertPerm] at hx
      rw [mem_foldl_insertPerm]
      rcases hx with hx | hx
      · exact Or.inl (h1 x hx)
      · exact Or.inr (hrole.1 x hx)
    have h2' : ∀ x ∈ rp'.foldl insertPerm acc',
        x ∈ rp.foldl insertPerm acc ∨ x = perm := by
      intro x hx
      rw [mem_foldl_insertPerm] at hx
      rcases hx with hx | hx
      · rcases h2 x hx with hx' | hx'
        · exact Or.inl ((mem_foldl_insertPerm rp acc x).mpr (Or.inl hx'))
        · exact Or.inr hx'
      · rcases hrole.2 x hx with hx' | hx'
        · exact Or.inl ((mem_foldl_insertPerm rp acc x).mpr (Or.inr hx'))
        · exact Or.inr hx'
    have hsc : ((rp'.foldl insertPerm acc').contains "*" ||
          (rp'.foldl insertPerm acc').contains ADMIN_ALL) =
        ((rp.foldl insertPerm acc).contains "*" ||
          (rp.foldl insertPerm acc).contains ADMIN_ALL) := by
      have hbool : ∀ (a b : Bool), (a = true ↔ b = true) → a = b := by decide
      apply hbool
      simp only [Bool.or_eq_true, contains_iff_mem]
      constructor
      · rintro (hx | hx)
        · rcases h2' "*" hx with hx' | hx'
          · exact Or.inl hx'
          · exact absurd hx'.symm hstar
        · rcases h2' ADMIN_ALL hx with hx' | hx'
          · exact Or.inr hx'
          · exact absurd hx'.symm hadmin
      · rintro (hx | hx)
        · exact Or.inl (h1' _ hx)
        · exact Or.inr (h1' _ hx)
    rw [rolesLoop] at hq ⊢
    rw [← hrp] at hq
    rw [← hrp']
    rw [hsc]
    by_cases hcond : ((rp.foldl insertPerm acc).contains "*" ||
        (rp.foldl insertPerm acc).contains ADMIN_ALL) = true
    · rw [if_pos hcond] at hq ⊢
      exact hq
    · rw [if_neg hcond] at hq ⊢
      exact ih _ _ h1' h2' q hq

/-- Counterexample to claim C6: Permission resolution is *not* monotonic:
a principal with the direct grant `foo` (outside the fixed permission
universe) and role `r1` loses `foo` when the wildcard `*` is added to
`r1` — the resolver then collapses to the fixed universe, which does not
contain `foo`, and `hasPermission` on `foo` flips from true to false. -/
theorem getAllUserPermissions_not_monotone_counterexample :
    ("foo" ∈ getAllUserPermissions [{ id := "r1", permissions := ["view_x"] }]
      (some { role := "user", permissions := ["foo"], roles := ["r1"] })) ∧
    ("foo" ∉ getAllUserPermissions
      (addPermToRole [{ id := "r1", permissions := ["view_x"] }] "r1" "*")
      (some { role := "user", permissions := ["foo"], roles := ["r1"] })) ∧
    hasPermission [{ id := "r1", permissions := ["view_x"] }]
      (some { role := "user", permissions := ["foo"], roles := ["r1"] })
      "foo" = true ∧
    hasPermission
      (addPermToRole [{ id := "r1", permissions := ["view_x"] }] "r1" "*")
      (some { role := "user", permissions := ["foo"], roles := ["r1"] })
      "foo" = false := by
  decide

/-- Claim C6, amended: Permission resolution is monotonic for ordinary
permissions: for every principal, every role the principal holds, and
every permission `p` other than the wildcard sentinel `*` and the legacy
escalation permission `admin_all`, adding `p` to that role's permission
set only grows the principal's effective permission set as computed by
`getAllUserPermissions`. -/
theorem getAllUserPermissions_monotone
    (rolesData : List Role) (roleId p : String) (u : User)
    (hstar : p ≠ "*") (hadmin : p ≠ ADMIN_ALL)
    (_hheld : roleId ∈ u.roles) :
    ∀ q ∈ getAllUserPermissions rolesData (some u),
      q ∈ getAllUserPermissions (addPermToRole rolesData roleId p) (some u) := by
  intro q hq
  unfold getAllUserPermissions at hq ⊢
  simp only [] at hq ⊢
  by_cases hsa : isSuperAdmin u = true
  · rw [if_pos hsa] at hq ⊢
    exact hq
  · rw [if_neg hsa] at hq ⊢
    by_cases hua : isUserAdmin u = true
    · rw [if_pos hua] at hq ⊢
      exact hq
    · rw [if_neg hua] at hq ⊢
      by_cases hwc : hasWildcard u = true
      · rw [if_pos hwc] at hq ⊢
        exact hq
      · rw [if_neg hwc] at hq ⊢
        exact rolesLoop_mono rolesData roleId p hstar hadmin u.roles
          _ _ (fun x hx => hx) (fun x hx => Or.inl hx) q hq

/-- Witness for claim C6 as amended: adding the ordinary permission `bar`
to role `r1` preserves the principal's existing effective permission
`foo`. -/
theorem getAllUserPermissions_monotone_witness :
    "foo" ∈ getAllUserPermissions
      (addPermToRole [{ id := "r1", permissions := ["view_x"] }] "r1" "bar")
      (some { role := "user", permissions := ["foo"], roles := ["r1"] }) := by
  exact getAllUserPermissions_monotone
    [{ id := "r1", permissions := ["view_x"] }] "r1" "bar"
    { role := "user", permissions := ["foo"], roles := ["r1"] }
    (by decide) (by decide) (by decide) "foo" (by decide)

/-! ## Theorems: Field Cipher -/

/-- A configured environment yields its key from `getEncryptionKey`. -/
theorem getEncryptionKey_of_configured (env : CryptoEnv)
    (h : isEncryptionConfigured env = true) :
    ∃ k, env.encryptionKey = some k ∧ getEncryptionKey env = .ok k := by
  cases hk : env.encryptionKey with
  | none => simp [isEncryptionConfigured, hk] at h
  | some k =>
    refine ⟨k, rfl, ?_⟩
    have hlen : ¬ k.length < 32 := by
      simp only [isEncryptionConfigured, hk, ge_iff_le, decide_eq_true_eq] at h
      omega
    simp [getEncryptionKey, hk, hlen]

/-- Claim C9: Encryption fails closed when misconfigured: `isConfigured`
is true exactly when the master secret is present with ≥ 32 characters,
and whenever it is false, `encrypt` on any non-empty plaintext throws
instead of returning a value — plaintext is never returned as the
encrypted result. -/
theorem encryption_fails_closed (env : CryptoEnv) :
    (isEncryptionConfigured env = true ↔
      ∃ k, env.encryptionKey = some k ∧ 32 ≤ k.length) ∧
    (isEncryptionConfigured env = false →
      ∀ salt iv text, text ≠ [] →
        encrypt env salt iv text = .error "Failed to encrypt data") := by
  constructor
  · cases hk : env.encryptionKey with
    | none => simp [isEncryptionConfigured, hk]
    | some k => simp [isEncryptionConfigured, hk]
  · intro hnc salt iv text htext
    have hne : text.isEmpty = false := by
      cases text with
      | nil => exact absurd rfl htext
      | cons b rest => rfl
    cases hk : env.encryptionKey with
    | none => simp [encrypt, hne, getEncryptionKey, hk]
    | some k =>
      have hshort : k.length < 32 := by
        simp only [isEncryptionConfigured, hk, ge_iff_le,
          decide_eq_false_iff_not] at hnc
        omega
      simp [encrypt, hne, getEncryptionKey, hk, hshort]

/-- Witness for claim C9: with no master secret configured, encrypting the
single byte `0x41` throws rather than storing plaintext. -/
theorem encryption_fails_closed_witness :
    encrypt { encryptionKey := none } [] [] [65] =
      .error "Failed to encrypt data" := by
  exact (encryption_fails_closed { encryptionKey := none }).2 rfl
    [] [] [65] (by decide)

/-- XOR-ing the same keystream twice restores the byte list. -/
theorem xorStream_involutive (key : Nat) (iv : List Nat) :
    ∀ (i : Nat) (l : List Nat),
      xorStream key iv i (xorStream key iv i l) = l := by
  intro i l
  induction l generalizing i with
  | nil => rfl
  | cons b rest ih =>
    simp [xorStream, Nat.xor_assoc, ih]

/-- The modelled tag always has the source's `TAG_LENGTH` of 16. -/
theorem computeTag_length (key : Nat) (iv ct : List Nat) :
    (computeTag key iv ct).length = TAG_LENGTH := by
  simp [computeTag, TAG_LENGTH]

/-- Splitting the combined `salt‖iv‖tag‖ct` buffer at the fixed offsets
recovers the components. -/
theorem blob_split (salt iv tag ct : List Nat)
    (hsalt : salt.length = SALT_LENGTH) (hiv : iv.length = IV_LENGTH)
    (htag : tag.length = TAG_LENGTH) :
    (salt ++ (iv ++ (tag ++ ct))).take SALT_LENGTH = salt ∧
    ((salt ++ (iv ++ (tag ++ ct))).drop SALT_LENGTH).take IV_LENGTH = iv ∧
    ((salt ++ (iv ++ (tag ++ ct))).drop (SALT_LENGTH + IV_LENGTH)).take
      TAG_LENGTH = tag ∧
    (salt ++ (iv ++ (tag ++ ct))).drop (SALT_LENGTH + IV_LENGTH + TAG_LENGTH)
      = ct := by
  have hlen2 : (salt ++ iv).length = SALT_LENGTH + IV_LENGTH := by
    rw [List.length_append, hsalt, hiv]
  have hlen3 : ((salt ++ iv) ++ tag).length =
      SALT_LENGTH + IV_LENGTH + TAG_LENGTH := by
    rw [List.length_append, List.length_append, hsalt, hiv, htag]
  refine ⟨List.take_left' hsalt, ?_, ?_, ?_⟩
  · rw [List.drop_left' hsalt]
    exact List.take_left' hiv
  · rw [← List.append_assoc, List.drop_left' hlen2]
    exact List.take_left' htag
  · rw [← List.append_assoc, ← List.append_assoc]
    exact List.drop_left' hlen3

/-- A list with a 64-byte prefix is not empty. -/
theorem salt_prefix_not_empty (salt rest : List Nat)
    (hsalt : salt.length = SALT_LENGTH) :
    (salt ++ rest).isEmpty = false := by
  cases salt with
  | nil => simp [SALT_LENGTH] at hsalt
  | cons b t => rfl

/-- What `encrypt` produces on a configured environment and non-empty
plaintext. -/
theorem encrypt_eq_blob (env : CryptoEnv) (salt iv text : List Nat) (k : String)
    (hgk : getEncryptionKey env = .ok k)
    (hne : text.isEmpty = false) :
    encrypt env salt iv text =
      .ok (some (salt ++ iv ++
        computeTag (deriveKey k salt) iv
          (xorStream (deriveKey k salt) iv 0 text) ++
        xorStream (deriveKey k salt) iv 0 text)) := by
  simp [encrypt, hne, hgk, gcmEncrypt]

/-- Claim C3: With a configured master secret, for every non-empty
plaintext, `decrypt(encrypt(x)) = x`; and two `encrypt` calls on the
same plaintext whose independently drawn random salt/IV pairs differ
yield different blobs. -/
theorem decrypt_encrypt_roundtrip
    (env : CryptoEnv) (salt iv salt' iv' text : List Nat)
    (hconf : isEncryptionConfigured env = true)
    (htext : text ≠ [])
    (hsalt : salt.length = SALT_LENGTH) (hiv : iv.length = IV_LENGTH)
    (hsalt' : salt'.length = SALT_LENGTH) (hiv' : iv'.length = IV_LENGTH)
    (hdiff : salt ≠ salt' ∨ iv ≠ iv') :
    ∃ blob blob',
      encrypt env salt iv text = .ok (some blob) ∧
      encrypt env salt' iv' text = .ok (some blob') ∧
      decrypt env blob = .ok (some text) ∧
      blob ≠ blob' := by
  obtain ⟨k, hk, hgk⟩ := getEncryptionKey_of_configured env hconf
  have hne : text.isEmpty = false := by
    cases text with
    | nil => exact absurd rfl htext
    | cons b rest => rfl
  refine ⟨_, _, encrypt_eq_blob env salt iv text k hgk hne,
    encrypt_eq_blob env salt' iv' text k hgk hne, ?_, ?_⟩
  · obtain ⟨hs1, hs2, hs3, hs4⟩ :=
      blob_split salt iv
        (computeTag (deriveKey k salt) iv (xorStream (deriveKey k salt) iv 0 text))
        (xorStream (deriveKey k salt) iv 0 text)
        hsalt hiv (computeTag_length _ _ _)
    have hempty : (salt ++ iv ++
        computeTag (deriveKey k salt) iv
          (xorStream (deriveKey k salt) iv 0 text) ++
        xorStream (deriveKey k salt) iv 0 text).isEmpty = false := by
      rw [show salt ++ iv ++
          computeTag (deriveKey k salt) iv
            (xorStream (deriveKey k salt) iv 0 text) ++
          xorStream (deriveKey k salt) iv 0 text =
          salt ++ (iv ++
            (computeTag (deriveKey k salt) iv
              (xorStream (deriveKey k salt) iv 0 text) ++
            xorStream (deriveKey k salt) iv 0 text)) from by
        simp [List.append_assoc]]
      exact salt_prefix_not_empty _ _ hsalt
    rw [decrypt, hempty]
    simp [hgk, hs1, hs2, hs3, hs4, gcmDecrypt, xorStream_involutive]
  · intro heq
    have hassoc : ∀ (s i : List Nat) (tg c : List Nat),
        s ++ i ++ tg ++ c = s ++ (i ++ (tg ++ c)) := by
      intro s i tg c
      simp [List.append_assoc]
    rw [hassoc, hassoc] at heq
    have hsalteq : salt = salt' := by
      have h1 := congrArg (fun l => l.take SALT_LENGTH) heq
      simpa [List.take_left' hsalt, List.take_left' hsalt'] using h1
    have hiveq : iv = iv' := by
      have h1 := congrArg (fun l => (l.drop SALT_LENGTH).take IV_LENGTH) heq
      simpa [List.drop_left' hsalt, List.drop_left' hsalt',
        List.take_left' hiv, List.take_left' hiv'] using h1
    rcases hdiff with h | h
    · exact h hsalteq
    · exact h hiveq

/-- Witness for claim C3: encrypting the bytes of `"hi"` under two
different salts round-trips and produces two distinct blobs. -/
theorem decrypt_encrypt_roundtrip_witness :
    ∃ blob blob',
      encrypt witnessEnv witnessSalt witnessIv [104, 105] = .ok (some blob) ∧
      encrypt witnessEnv witnessSalt2 witnessIv [104, 105] = .ok (some blob') ∧
      decrypt witnessEnv blob = .ok (some [104, 105]) ∧
      blob ≠ blob' := by
  exact decrypt_encrypt_roundtrip witnessEnv witnessSalt witnessIv
    witnessSalt2 witnessIv [104, 105] (by decide) (by decide) (by decide)
    (by decide) (by decide) (by decide) (Or.inl (by decide))

/-- Setting an index past the prefix of an append sets in the suffix. -/
theorem set_append_of_le (l1 l2 : List Nat) :
    ∀ (n v : Nat), l1.length ≤ n →
      (l1 ++ l2).set n v = l1 ++ l2.set (n - l1.length) v := by
  induction l1 with
  | nil => intro n v _; simp
  | cons b t ih =>
    intro n v h
    cases n with
    | zero => simp at h
    | succ m =>
      simp only [List.cons_append, List.set_cons_succ, List.length_cons]
      rw [ih m v (by simpa using h)]
      have harith : m + 1 - (t.length + 1) = m - t.length := by omega
      rw [harith]

/-- Setting an index inside the prefix of an append sets in the prefix. -/
theorem set_append_of_lt (l1 l2 : List Nat) :
    ∀ (n v : Nat), n < l1.length →
      (l1 ++ l2).set n v = l1.set n v ++ l2 := by
  induction l1 with
  | nil => intro n v h; simp at h
  | cons b t ih =>
    intro n v h
    cases n with
    | zero => simp
    | succ m =>
      simp only [List.cons_append, List.set_cons_succ]
      rw [ih m v (by simpa using h)]

/-- Folding XOR from an arbitrary seed. -/
theorem foldl_xor_eq (l : List Nat) :
    ∀ (a : Nat), l.foldl (fun x b => x ^^^ b) a = a ^^^ xorFold l := by
  induction l with
  | nil => intro a; simp [xorFold]
  | cons b t ih =>
    intro a
    rw [List.foldl_cons, ih]
    have hx : xorFold (b :: t) = b ^^^ xorFold t := by
      simp only [xorFold, List.foldl_cons, Nat.zero_xor]
      exact ih b
    rw [hx, Nat.xor_assoc]

/-- Unfolding `xorFold` over a cons. -/
theorem xorFold_cons (b : Nat) (t : List Nat) :
    xorFold (b :: t) = b ^^^ xorFold t := by
  rw [xorFold, List.foldl_cons, foldl_xor_eq, Nat.zero_xor]

/-- XOR-ing a delta into one element XORs it into the fold. -/
theorem xorFold_set (l : List Nat) :
    ∀ (m d b : Nat), l[m]? = some b →
      xorFold (l.set m (b ^^^ d)) = xorFold l ^^^ d := by
  induction l with
  | nil => intro m d b h; simp at h
  | cons x t ih =>
    intro m d b h
    cases m with
    | zero =>
      simp only [List.getElem?_cons_zero, Option.some_inj] at h
      subst h
      rw [List.set_cons_zero, xorFold_cons, xorFold_cons, Nat.xor_assoc,
        Nat.xor_assoc, Nat.xor_comm d (xorFold t)]
    | succ m =>
      simp only [List.getElem?_cons_succ] at h
      rw [List.set_cons_succ, xorFold_cons, xorFold_cons, ih m d b h,
        ← Nat.xor_assoc]

/-- XOR with a power of two changes a natural number. -/
theorem xor_two_pow_ne (x j : Nat) : x ^^^ 2 ^ j ≠ x := by
  intro h
  have h1 : x ^^^ (x ^^^ 2 ^ j) = x ^^^ x := by rw [h]
  rw [← Nat.xor_assoc, Nat.xor_self, Nat.zero_xor] at h1
  have hpow : 0 < 2 ^ j := Nat.two_pow_pos j
  omega

/-- XOR with a low power of two changes a byte value even modulo 256. -/
theorem xor_two_pow_mod_ne (x j : Nat) (hj : j < 8) :
    (x ^^^ 2 ^ j) % 256 ≠ x % 256 := by
  intro heq
  have h256 : (256 : Nat) = 2 ^ 8 := by norm_num
  rw [h256] at heq
  have hbit := congrArg (fun y => Nat.testBit y j) heq
  simp only [Nat.testBit_mod_two_pow, Nat.testBit_xor, Nat.testBit_two_pow_self,
    hj] at hbit
  cases hx : x.testBit j <;> simp [hx] at hbit

/-- Evaluating `decrypt` on a well-shaped buffer reduces to the authenticated-cipher
verdict on the extracted components. -/
theorem decrypt_of_parts (env : CryptoEnv) (k : String)
    (salt iv tag2 ct2 : List Nat)
    (hgk : getEncryptionKey env = .ok k)
    (hsalt : salt.length = SALT_LENGTH) (hiv : iv.length = IV_LENGTH)
    (htag2 : tag2.length = TAG_LENGTH) :
    decrypt env (salt ++ (iv ++ (tag2 ++ ct2))) =
      match gcmDecrypt (deriveKey k salt) iv ct2 tag2 with
      | .ok d => .ok (some d)
      | .error _ => .error "Failed to decrypt data" := by
  obtain ⟨hs1, hs2, hs3, hs4⟩ := blob_split salt iv tag2 ct2 hsalt hiv htag2
  have hempty := salt_prefix_not_empty salt (iv ++ (tag2 ++ ct2)) hsalt
  rw [decrypt, hempty]
  simp only [Bool.false_eq_true, if_false, hgk, hs1, hs2, hs3, hs4]

/-- Claim C4: For every blob produced by `encrypt`, flipping any bit of
any byte in the blob's authentication-tag or ciphertext region makes
`decrypt` fail with a hard error — it never returns altered
plaintext. -/
theorem decrypt_rejects_tampering
    (env : CryptoEnv) (salt iv text blob : List Nat) (idx j : Nat)
    (hconf : isEncryptionConfigured env = true)
    (htext : text ≠ [])
    (hsalt : salt.length = SALT_LENGTH) (hiv : iv.length = IV_LENGTH)
    (hblob : encrypt env salt iv text = .ok (some blob))
    (hlo : SALT_LENGTH + IV_LENGTH ≤ idx) (hhi : idx < blob.length)
    (hj : j < 8) :
    decrypt env (flipBitAt blob idx j) = .error "Failed to decrypt data" := by
  obtain ⟨k, hk, hgk⟩ := getEncryptionKey_of_configured env hconf
  have hne : text.isEmpty = false := by
    cases text with
    | nil => exact absurd rfl htext
    | cons b rest => rfl
  have hb := encrypt_eq_blob env salt iv text k hgk hne
  have hblobeq : blob =
      salt ++ iv ++
        computeTag (deriveKey k salt) iv
          (xorStream (deriveKey k salt) iv 0 text) ++
        xorStream (deriveKey k salt) iv 0 text := by
    have h1 := hblob.symm.trans hb
    simpa using h1
  set key := deriveKey k salt with hkey
  set ct := xorStream key iv 0 text with hctdef
  set tag := computeTag key iv ct with htagdef
  have htaglen : tag.length = TAG_LENGTH := computeTag_length key iv ct
  subst hblobeq
  have hassoc : salt ++ iv ++ tag ++ ct = (salt ++ iv) ++ (tag ++ ct) := by
    simp [List.append_assoc]
  have hprelen : (salt ++ iv).length = SALT_LENGTH + IV_LENGTH := by
    rw [List.length_append, hsalt, hiv]
  have hidx2 : (salt ++ iv).length ≤ idx := by rw [hprelen]; exact hlo
  set m := idx - (SALT_LENGTH + IV_LENGTH) with hm
  have hmlt : m < (tag ++ ct).length := by
    have hlen : (salt ++ iv ++ tag ++ ct).length =
        (salt ++ iv).length + (tag ++ ct).length := by
      rw [hassoc, List.length_append]
    rw [hlen, hprelen] at hhi
    omega
  have hget : (salt ++ iv ++ tag ++ ct)[idx]? = (tag ++ ct)[m]? := by
    rw [hassoc, List.getElem?_append_right hidx2, hprelen]
  have hgetv : (tag ++ ct)[m]? = some ((tag ++ ct).get ⟨m, hmlt⟩) := by
    rw [List.getElem?_eq_getElem hmlt]
    rfl
  set b := (tag ++ ct).get ⟨m, hmlt⟩ with hbdef
  have hflip : flipBitAt (salt ++ iv ++ tag ++ ct) idx j =
      (salt ++ iv ++ tag ++ ct).set idx (b ^^^ 2 ^ j) := by
    rw [flipBitAt, hget, hgetv]
  have hsetsplit : (salt ++ iv ++ tag ++ ct).set idx (b ^^^ 2 ^ j) =
      (salt ++ iv) ++ (tag ++ ct).set m (b ^^^ 2 ^ j) := by
    rw [hassoc, set_append_of_le (salt ++ iv) (tag ++ ct) idx (b ^^^ 2 ^ j)
      hidx2, hprelen]
  rw [hflip, hsetsplit]
  by_cases hmt : m < TAG_LENGTH
  · -- the flipped byte lies in the tag region
    have hmt2 : m < tag.length := by rw [htaglen]; exact hmt
    have hbtag : (tag ++ ct)[m]? = tag[m]? := List.getElem?_append_left hmt2
    have hbval : tag[m]? = some b := by
      rw [← hbtag, hgetv]
    have hsetform : (tag ++ ct).set m (b ^^^ 2 ^ j) =
        tag.set m (b ^^^ 2 ^ j) ++ ct :=
      set_append_of_lt tag ct m (b ^^^ 2 ^ j) hmt2
    rw [hsetform, List.append_assoc,
      decrypt_of_parts env k salt iv (tag.set m (b ^^^ 2 ^ j)) ct hgk hsalt hiv
        (by rw [List.length_set]; exact htaglen)]
    have hcond : computeTag (deriveKey k salt) iv ct ≠
        tag.set m (b ^^^ 2 ^ j) := by
      rw [← hkey, ← htagdef]
      intro hcontra
      have hcell := congrArg (fun l => l[m]?) hcontra
      simp only [] at hcell
      rw [hbval, List.getElem?_set_self] at hcell
      · exact absurd (Option.some.inj hcell.symm) (xor_two_pow_ne b j)
      · exact hmt2
    rw [gcmDecrypt, if_neg hcond]
  · -- the flipped byte lies in the ciphertext region
    have hmt2 : TAG_LENGTH ≤ m := Nat.le_of_not_lt hmt
    have htagle : tag.length ≤ m := by rw [htaglen]; exact hmt2
    have hctlt : m - tag.length < ct.length := by
      rw [List.length_append] at hmlt
      omega
    have hbct : (tag ++ ct)[m]? = ct[m - tag.length]? :=
      List.getElem?_append_right htagle
    have hbval : ct[m - tag.length]? = some b := by
      rw [← hbct, hgetv]
    have hsetform : (tag ++ ct).set m (b ^^^ 2 ^ j) =
        tag ++ ct.set (m - tag.length) (b ^^^ 2 ^ j) :=
      set_append_of_le tag ct m (b ^^^ 2 ^ j) htagle
    rw [hsetform, List.append_assoc,
      decrypt_of_parts env k salt iv tag
        (ct.set (m - tag.length) (b ^^^ 2 ^ j)) hgk hsalt hiv htaglen]
    have htag0 : tag[0]? = some (xorFold ct % 256) := by
      rw [htagdef]
      simp only [computeTag, List.getElem?_cons_zero]
    have hcond : computeTag (deriveKey k salt) iv
        (ct.set (m - tag.length) (b ^^^ 2 ^ j)) ≠ tag := by
      rw [← hkey]
      intro hcontra
      have hhead := congrArg (fun l => l[0]?) hcontra
      simp only [] at hhead
      rw [htag0] at hhead
      simp only [computeTag, List.getElem?_cons_zero, Option.some_inj] at hhead
      rw [xorFold_set ct (m - tag.length) (2 ^ j) b hbval] at hhead
      exact absurd hhead (xor_two_pow_mod_ne (xorFold ct) j hj)
    rw [gcmDecrypt, if_neg hcond]

/-- Witness for claim C4: flipping bit 3 of byte 97 (ciphertext region)
and bit 0 of byte 85 (tag region) of a concrete blob both make `decrypt`
fail hard. -/
theorem decrypt_rejects_tampering_witness :
    ∃ blob, encrypt witnessEnv witnessSalt witnessIv [104, 105] =
        .ok (some blob) ∧
      decrypt witnessEnv (flipBitAt blob 97 3) =
        .error "Failed to decrypt data" ∧
      decrypt witnessEnv (flipBitAt blob 85 0) =
        .error "Failed to decrypt data" := by
  refine ⟨_, rfl, ?_, ?_⟩
  · exact decrypt_rejects_tampering witnessEnv witnessSalt witnessIv [104, 105]
      _ 97 3 (by decide) (by decide) (by decide) (by decide) rfl
      (by decide) (by decide) (by decide)
  · exact decrypt_rejects_tampering witnessEnv witnessSalt witnessIv [104, 105]
      _ 85 0 (by decide) (by decide) (by decide) (by decide) rfl
      (by decide) (by decide) (by decide)

end HivePanel
